import Mathlib

/-!
Shallow embedding of `lib/sqlalchemy/orm/events.py`: the ORM event
adapter module.  The module defines five adapter classes
(`InstrumentationEvents`, `InstanceEvents`, `MapperEvents`,
`SessionEvents`, `AttributeEvents`), each configuring how a kind of ORM
object plugs into the generic event core (`sqlalchemy.event`).

Modelling choices, stated once:

* Python objects relevant to the wrappers are modelled by `PyObj`:
  plain values carry a `Nat` identity; an `InstanceState`
  state-management object wraps an underlying instance; the sentinel
  `EXT_CONTINUE` (from `sqlalchemy.orm.interfaces`) is its own
  constructor.  The `.obj()` method of an `InstanceState` is
  `PyObj.objMeth`; it is `none` (an `AttributeError` in Python) on
  anything that is not an `InstanceState`.
* A user callback is identified by a `Nat`; its behaviour is supplied
  by an environment `Env` mapping the identity and the positional and
  keyword arguments to the returned value.  User callbacks are pure.
* The callables that `listen` hands to the event core are `Callable`:
  either the user function itself or one of the three wrapper closures
  created at registration time.  `Callable.call` is the exact runtime
  behaviour of the corresponding Python callable; it also records the
  positional and keyword arguments with which the user callback was
  invoked, so that argument normalization is observable.  A `none`
  result is a Python-level error inside the wrapper (a missing
  positional argument, an out-of-range `target_index`, or `.obj()` on
  an object without that method).
* A call to `event.Events.listen(target, identifier, fn, propagate)`
  on the (external, out of scope) event core is recorded as a
  `Registration`; each `listen` classmethod returns the list of
  registrations it performs, in order.
* Host-framework lookups that are out of scope
  (`target.subclass_managers(True)`, `target.self_and_descendants`,
  `manager_of_class`, `class_mapper`, `target.session_factory`,
  `mgr[key]`) are modelled as data carried by the target, abstracting
  the host behaviour; errors the host might raise inside them are the
  host's own and are not modelled.
* Raised exceptions are `PyErr`; an operation that can raise returns
  `Except PyErr _`.
-/

/-- Python error values raised by, or observable from, this module. -/
inductive PyErr where
  | notImplementedError (msg : String)
  | argumentError (msg : String)
  | attributeError
  | keyError
deriving DecidableEq, Repr

/-- Python runtime values as far as the registration wrappers can tell
them apart: a plain object with an identity, an `InstanceState`
management object wrapping an instance, and the `EXT_CONTINUE`
sentinel. -/
inductive PyObj where
  | val (id : Nat)
  | instanceState (underlying : PyObj)
  | extContinue
deriving DecidableEq, Repr

/-- The `.obj()` method: an `InstanceState` yields the underlying
mapped instance; any other object has no such method
(`AttributeError`, hence `none`). -/
def PyObj.objMeth : PyObj → Option PyObj
  | .instanceState u => some u
  | _ => none

/-- Keyword arguments of a Python call. -/
abbrev Kw : Type := List (String × PyObj)

/-- Behaviour of the user-supplied callbacks: callback identity and
arguments to returned value. -/
abbrev Env : Type := Nat → List PyObj → Kw → PyObj

/-- The callable handed to the event core by a `listen` classmethod:
the user function unchanged, or one of the three wrapper closures
built in `InstanceEvents.listen`, `MapperEvents.listen` and
`AttributeEvents.listen`. -/
inductive Callable where
  | user (fnId : Nat)
  | instanceWrap (fnId : Nat)
  | mapperWrap (raw retval : Bool) (target_index : Option Nat) (fnId : Nat)
  | attrWrap (raw retval : Bool) (fnId : Nat)
deriving DecidableEq, Repr

/-- Outcome of invoking a registered callable: the positional and
keyword arguments the user callback was invoked with, and the value
the registered callable returned to the event core. -/
structure CallResult where
  fnArgs : List PyObj
  fnKw : Kw
  ret : PyObj
deriving DecidableEq, Repr

/-- The argument normalization step of the `MapperEvents.listen`
wrapper: `if not raw and target_index is not None: arg = list(arg);
arg[target_index] = arg[target_index].obj()`.  `none` is a Python
error (`IndexError` on a too-short argument list, or `.obj()` missing
on the object at `target_index`). -/
def mapperNormArgs (raw : Bool) (target_index : Option Nat) (arg : List PyObj) :
    Option (List PyObj) :=
  if !raw then
    match target_index with
    | some i => do
      let v ← arg[i]?
      let o ← v.objMeth
      pure (arg.set i o)
    | none => pure arg
  else
    pure arg

/-- Runtime behaviour of a registered callable.

* `user f`: the user function itself, called as given.
* `instanceWrap f`: `def wrap(state, *arg, **kw): return
  orig_fn(state.obj(), *arg, **kw)` from `InstanceEvents.listen`.
* `mapperWrap raw retval target_index f`: `def wrap(*arg, **kw)` from
  `MapperEvents.listen`: when `not raw and target_index is not None`
  it replaces `arg[target_index]` by `arg[target_index].obj()`; when
  `not retval` it calls the user function, discards the result and
  returns `EXT_CONTINUE`, otherwise it returns the user function's
  result.
* `attrWrap raw retval f`: `def wrap(target, value, *arg)` from
  `AttributeEvents.listen`: when `not raw` it replaces `target` by
  `target.obj()`; when `not retval` it calls the user function and
  returns `value`, otherwise it returns the user function's result.
  The wrapper takes no keyword arguments, so a call with keywords is a
  `TypeError` (`none`). -/
def Callable.call (env : Env) : Callable → List PyObj → Kw → Option CallResult
  | .user f, arg, kw => some ⟨arg, kw, env f arg kw⟩
  | .instanceWrap f, arg, kw =>
    match arg with
    | [] => none
    | state :: rest =>
      (state.objMeth).map fun o => ⟨o :: rest, kw, env f (o :: rest) kw⟩
  | .mapperWrap raw retval target_index f, arg, kw => do
    let arg ← mapperNormArgs raw target_index arg
    if !retval then
      pure ⟨arg, kw, PyObj.extContinue⟩
    else
      pure ⟨arg, kw, env f arg kw⟩
  | .attrWrap raw retval f, arg, kw =>
    match arg, kw with
    | target :: value :: rest, [] => do
      let target ← if !raw then target.objMeth else pure target
      if !retval then
        pure ⟨target :: value :: rest, [], value⟩
      else
        pure ⟨target :: value :: rest, [], env f (target :: value :: rest) []⟩
    | _, _ => none

/-- One call to `event.Events.listen(target, identifier, fn,
propagate)` on the external event core: the identity of the object
registered on, the event identifier, the callable handed over, and the
propagate flag passed through. -/
structure Registration where
  target : Nat
  identifier : String
  fn : Callable
  propagate : Bool
deriving DecidableEq, Repr

/-- A registry of listeners, as far as `remove` is concerned. -/
abbrev RegState : Type := List Registration

/-- The five adapter classes of the module, as declared. -/
inductive EventCls where
  | instrumentationEvents
  | instanceEvents
  | mapperEvents
  | sessionEvents
  | attributeEvents
deriving DecidableEq, Repr

/-- The classmethods each class body defines itself (decorated
`@classmethod` in the source; anything absent is inherited from the
base `event.Events`). -/
def definedClassmethods : EventCls → List String
  | .instrumentationEvents => ["accept_with", "listen", "remove"]
  | .instanceEvents => ["accept_with", "listen", "remove"]
  | .mapperEvents => ["accept_with", "listen", "remove"]
  | .sessionEvents => ["accept_with", "remove"]
  | .attributeEvents => ["listen", "remove"]

/-! ## InstrumentationEvents -/

/-- Targets of `InstrumentationEvents.accept_with`, split by the one
test the method performs, `isinstance(target, type)`: the class `type`
itself, any other class, or a non-class object. -/
inductive InstrTarget where
  | typeItself
  | cls (id : Nat)
  | nonClass (id : Nat)
deriving DecidableEq, Repr

/-- Possible resolutions of an instrumentation-event target. -/
inductive InstrResolved where
  | instrumentation_registry
deriving DecidableEq, Repr

/-- `InstrumentationEvents.accept_with`: a class (any instance of
`type`, `type` itself included) resolves to the global
`instrumentation_registry`; anything else resolves to `None`. -/
def InstrumentationEvents.accept_with : InstrTarget → Except PyErr (Option InstrResolved)
  | .typeItself => .ok (some .instrumentation_registry)
  | .cls _ => .ok (some .instrumentation_registry)
  | .nonClass _ => .ok none

/-- `InstrumentationEvents.listen`: a single delegation to
`event.Events.listen(target, identifier, fn, propagate=propagate)`
with the user function unchanged. -/
def InstrumentationEvents.listen (target : Nat) (identifier : String) (fnId : Nat)
    (propagate : Bool) : List Registration :=
  [⟨target, identifier, Callable.user fnId, propagate⟩]

/-- `InstrumentationEvents.remove`: raises `NotImplementedError`
without touching anything; the registry state is threaded through to
make that observable. -/
def InstrumentationEvents.remove (_identifier : String) (_target : Nat) (_fnId : Nat)
    (st : RegState) : Option PyErr × RegState :=
  (some (.notImplementedError "Removal of instrumentation events not yet implemented"), st)

/-! ## InstanceEvents -/

/-- A `ClassManager` as `InstanceEvents.listen` sees it: its identity
and the result of the host call `target.subclass_managers(True)`. -/
structure ClassManagerT where
  id : Nat
  subclass_managers : List Nat
deriving DecidableEq, Repr

/-- Targets of `InstanceEvents.accept_with`, split by the isinstance
tests the method performs in order: a `ClassManager`, a `Mapper`
instance (carrying its `class_manager`), the `mapper` function object,
a class that is a subclass of `Mapper`, any other class (carrying the
host result of `manager_of_class`), or anything else. -/
inductive InstanceTarget where
  | classManager (id : Nat)
  | mapperInstance (class_manager : Nat)
  | mapperFunction
  | mapperSubclass (id : Nat)
  | otherClass (manager : Option Nat)
  | other (id : Nat)
deriving DecidableEq, Repr

/-- Possible resolutions of an instance-event target: a concrete
`ClassManager`, or the `ClassManager` class itself. -/
inductive InstanceResolved where
  | manager (id : Nat)
  | classManagerCls
deriving DecidableEq, Repr

/-- `InstanceEvents.accept_with`, clause by clause from the source:
a `ClassManager` is returned as-is; a `Mapper` instance yields its
`class_manager`; the `mapper` function and `Mapper` subclasses yield
the `ClassManager` class; another class yields `manager_of_class`
when that is truthy; everything else falls through to `None`. -/
def InstanceEvents.accept_with : InstanceTarget → Except PyErr (Option InstanceResolved)
  | .classManager id => .ok (some (.manager id))
  | .mapperInstance cm => .ok (some (.manager cm))
  | .mapperFunction => .ok (some .classManagerCls)
  | .mapperSubclass _ => .ok (some .classManagerCls)
  | .otherClass mgr =>
    match mgr with
    | some m => .ok (some (.manager m))
    | none => .ok none
  | .other _ => .ok none

/-- `InstanceEvents.listen`: unless `raw`, the user function is
replaced by the `wrap` closure that unwraps the leading state
argument; the callable is registered on the target with the given
propagate flag, and when `propagate` also on every manager in
`target.subclass_managers(True)` with the flag `True`. -/
def InstanceEvents.listen (target : ClassManagerT) (identifier : String) (fnId : Nat)
    (raw : Bool) (propagate : Bool) : List Registration :=
  let fn := if !raw then Callable.instanceWrap fnId else Callable.user fnId
  ⟨target.id, identifier, fn, propagate⟩ ::
    (if propagate then
      target.subclass_managers.map fun mgr => ⟨mgr, identifier, fn, true⟩
    else [])

/-- `InstanceEvents.remove`: raises `NotImplementedError` without
touching anything. -/
def InstanceEvents.remove (_identifier : String) (_target : Nat) (_fnId : Nat)
    (st : RegState) : Option PyErr × RegState :=
  (some (.notImplementedError "Removal of instance events not yet implemented"), st)

/-! ## MapperEvents -/

/-- A `Mapper` as `MapperEvents.listen` sees it: its identity and the
host-provided `self_and_descendants` collection. -/
structure MapperT where
  id : Nat
  self_and_descendants : List Nat
deriving DecidableEq, Repr

/-- Targets of `MapperEvents.accept_with`: the `mapper` function
object, a class that is a subclass of `Mapper`, any other class
(carrying the host result of `class_mapper`), or a non-class object,
which the method passes through untouched. -/
inductive MapperAcceptTarget where
  | mapperFunction
  | mapperSubclass (id : Nat)
  | otherClass (class_mapper : Nat)
  | nonClass (id : Nat)
deriving DecidableEq, Repr

/-- Possible resolutions of a mapper-event target: the `Mapper` class,
a `Mapper` subclass, a concrete mapper from `class_mapper`, or the
original non-class target unchanged. -/
inductive MapperResolved where
  | mapperCls
  | mapperSubclass (id : Nat)
  | mapper (id : Nat)
  | asIs (id : Nat)
deriving DecidableEq, Repr

/-- `MapperEvents.accept_with`: the `mapper` function yields the
`Mapper` class; a `Mapper` subclass is returned as-is; another class
yields `class_mapper(target)`; any non-class target is returned
unchanged. -/
def MapperEvents.accept_with : MapperAcceptTarget → Except PyErr (Option MapperResolved)
  | .mapperFunction => .ok (some .mapperCls)
  | .mapperSubclass id => .ok (some (.mapperSubclass id))
  | .otherClass cm => .ok (some (.mapper cm))
  | .nonClass id => .ok (some (.asIs id))

/-- The `inspect.getargspec(meth)[0]` of each event-hook method
declared in the `MapperEvents` class body, keyed by identifier
(`getattr(cls, identifier)`); an identifier naming no declared hook is
an `AttributeError`, modelled as `none`. -/
def MapperEvents.argspec : String → Option (List String)
  | "on_instrument_class" => some ["self", "mapper", "class_"]
  | "on_translate_row" => some ["self", "mapper", "context", "row"]
  | "on_create_instance" => some ["self", "mapper", "context", "row", "class_"]
  | "on_append_result" => some ["self", "mapper", "context", "row", "target", "result"]
  | "on_populate_instance" => some ["self", "mapper", "context", "row", "target"]
  | "on_before_insert" => some ["self", "mapper", "connection", "target"]
  | "on_after_insert" => some ["self", "mapper", "connection", "target"]
  | "on_before_update" => some ["self", "mapper", "connection", "target"]
  | "on_after_update" => some ["self", "mapper", "connection", "target"]
  | "on_before_delete" => some ["self", "mapper", "connection", "target"]
  | "on_after_delete" => some ["self", "mapper", "connection", "target"]
  | _ => none

/-- `inspect.getargspec(meth)[0].index('target') - 1`, with the
`ValueError` of a missing `'target'` caught into `None`. -/
def target_index_of (spec : List String) : Option Nat :=
  match spec.findIdx? (fun p => p == "target") with
  | some i => some (i - 1)
  | none => none

/-- `MapperEvents.listen`: unless both `raw` and `retval`, the user
function is replaced by the `wrap` closure (computing `target_index`
from the hook signature when `not raw`); with `propagate` the callable
is registered on every mapper in `target.self_and_descendants` with
`propagate=True`, otherwise on the target alone. -/
def MapperEvents.listen (target : MapperT) (identifier : String) (fnId : Nat)
    (raw retval propagate : Bool) : Except PyErr (List Registration) := do
  let fn ←
    if !raw || !retval then do
      let target_index ←
        if !raw then
          match MapperEvents.argspec identifier with
          | some spec => Except.ok (target_index_of spec)
          | none => Except.error PyErr.attributeError
        else
          Except.ok none
      Except.ok (Callable.mapperWrap raw retval target_index fnId)
    else
      Except.ok (Callable.user fnId)
  if propagate then
    Except.ok (target.self_and_descendants.map fun m =>
      ⟨m, identifier, fn, true⟩)
  else
    Except.ok [⟨target.id, identifier, fn, false⟩]

/-- `MapperEvents.remove`: raises `NotImplementedError` without
touching anything. -/
def MapperEvents.remove (_identifier : String) (_target : Nat) (_fnId : Nat)
    (st : RegState) : Option PyErr × RegState :=
  (some (.notImplementedError "Removal of mapper events not yet implemented"), st)

/-! ## SessionEvents -/

/-- What `SessionEvents.accept_with` can learn about the
`session_factory` attribute of a `ScopedSession` target: a type that
is a subclass of `Session`, a type that is not, or not a type at
all. -/
inductive FactoryKind where
  | sessionSubCls (id : Nat)
  | otherCls (id : Nat)
  | notAType (id : Nat)
deriving DecidableEq, Repr

/-- Kinds of class passed to `SessionEvents.accept_with`: a subclass
of `ScopedSession`, a subclass of `Session` (including `Session`
itself), or any other class. -/
inductive SessionClassKind where
  | scopedSessionSub (id : Nat)
  | sessionSub (id : Nat)
  | otherClass (id : Nat)
deriving DecidableEq, Repr

/-- Targets of `SessionEvents.accept_with`, split by the isinstance
tests performed in order: a `ScopedSession` instance (carrying its
`session_factory`), a class, a `Session` instance, or anything
else. -/
inductive SessionTarget where
  | scopedInstance (session_factory : FactoryKind)
  | cls (kind : SessionClassKind)
  | sessionInstance (id : Nat)
  | other (id : Nat)
deriving DecidableEq, Repr

/-- Possible resolutions of a session-event target: a session factory
class, the `Session` class itself, a `Session` subclass, or a
`Session` instance. -/
inductive SessionResolved where
  | factory (id : Nat)
  | sessionCls
  | cls (id : Nat)
  | inst (id : Nat)
deriving DecidableEq, Repr

/-- The message of the `sqlalchemy.exc.ArgumentError` raised by
`SessionEvents.accept_with`, verbatim from the source (typo
included). -/
def scopedSessionErrMsg : String :=
  "Session event listen on a ScopedSession requries that its creation callable is a Session subclass."

/-- `SessionEvents.accept_with`, clause by clause from the source: a
`ScopedSession` whose `session_factory` is a `Session` subclass
resolves to that factory, and otherwise raises
`sqlalchemy.exc.ArgumentError`; a `ScopedSession` subclass resolves to
the `Session` class; a `Session` subclass resolves to itself; any
other class falls off the end of the method (`None`); a `Session`
instance resolves to itself; anything else is `None`. -/
def SessionEvents.accept_with : SessionTarget → Except PyErr (Option SessionResolved)
  | .scopedInstance f =>
    match f with
    | .sessionSubCls id => .ok (some (.factory id))
    | .otherCls _ => .error (.argumentError scopedSessionErrMsg)
    | .notAType _ => .error (.argumentError scopedSessionErrMsg)
  | .cls kind =>
    match kind with
    | .scopedSessionSub _ => .ok (some .sessionCls)
    | .sessionSub id => .ok (some (.cls id))
    | .otherClass _ => .ok none
  | .sessionInstance id => .ok (some (.inst id))
  | .other _ => .ok none

/-- `SessionEvents.remove`: raises `NotImplementedError` without
touching anything. -/
def SessionEvents.remove (_identifier : String) (_target : Nat) (_fnId : Nat)
    (st : RegState) : Option PyErr × RegState :=
  (some (.notImplementedError "Removal of session events not yet implemented"), st)

/-! ## AttributeEvents -/

/-- A subclass `ClassManager` as seen from `AttributeEvents.listen`
with `propagate=True`: its dictionary of instrumented attributes,
`mgr[key]` being a lookup in it. -/
structure SubManagerT where
  attrs : List (String × Nat)
deriving DecidableEq, Repr

/-- The `mgr[target.key]` item lookup; `none` is a host `KeyError`. -/
def SubManagerT.getitem (m : SubManagerT) (k : String) : Option Nat :=
  (m.attrs.find? (fun p => p.1 == k)).map (fun p => p.2)

/-- A class-bound attribute as `AttributeEvents.listen` sees it: its
identity, its `key`, the current `dispatch.active_history` flag, and
the host collection
`manager_of_class(target.class_).subclass_managers(True)`. -/
structure AttributeT where
  id : Nat
  key : String
  dispatch_active_history : Bool
  class_sub_managers : List SubManagerT
deriving DecidableEq, Repr

/-- The `propagate` loop of `AttributeEvents.listen`: `for mgr in
manager.subclass_managers(True): event.Events.listen(mgr[target.key],
identifier, fn, True)`, with a failing `mgr[key]` lookup raising
`KeyError`. -/
def attrSubListen (ms : List SubManagerT) (key identifier : String) (fn : Callable) :
    Except PyErr (List Registration) :=
  match ms with
  | [] => .ok []
  | mgr :: rest =>
    match mgr.getitem key with
    | some a => do
      let subs ← attrSubListen rest key identifier fn
      .ok (⟨a, identifier, fn, true⟩ :: subs)
    | none => .error PyErr.keyError

/-- `AttributeEvents.listen`: `active_history=True` sets
`target.dispatch.active_history`; unless both `raw` and `retval` the
user function is replaced by the `wrap` closure; the callable is
registered on the target with the given propagate flag, and when
`propagate` also on the same-named attribute `mgr[target.key]` of
every subclass manager, with the flag `True`.  Returns the updated
target together with the registrations performed. -/
def AttributeEvents.listen (target : AttributeT) (identifier : String) (fnId : Nat)
    (active_history raw retval propagate : Bool) :
    Except PyErr (AttributeT × List Registration) := do
  let target :=
    if active_history then { target with dispatch_active_history := true } else target
  let fn :=
    if !raw || !retval then Callable.attrWrap raw retval fnId else Callable.user fnId
  let base : Registration := ⟨target.id, identifier, fn, propagate⟩
  if propagate then do
    let subs ← attrSubListen target.class_sub_managers target.key identifier fn
    Except.ok (target, base :: subs)
  else
    Except.ok (target, [base])

/-- `AttributeEvents.remove`: raises `NotImplementedError` without
touching anything. -/
def AttributeEvents.remove (_identifier : String) (_target : Nat) (_fnId : Nat)
    (st : RegState) : Option PyErr × RegState :=
  (some (.notImplementedError "Removal of attribute events not yet implemented"), st)

/-! ## Derived descriptions of the listen results, used by the
theorems -/

/-- The registrations `MapperEvents.listen` performs once the callable
to register is fixed: on every mapper of `self_and_descendants` with
`propagate=True`, or on the target alone. -/
def mapperRegs (target : MapperT) (identifier : String) (fn : Callable)
    (propagate : Bool) : List Registration :=
  if propagate then
    target.self_and_descendants.map fun m => ⟨m, identifier, fn, true⟩
  else
    [⟨target.id, identifier, fn, false⟩]

/-- The callable `AttributeEvents.listen` registers: the `wrap`
closure unless both `raw` and `retval` are set. -/
def attrFnOf (raw retval : Bool) (fnId : Nat) : Callable :=
  if !raw || !retval then Callable.attrWrap raw retval fnId else Callable.user fnId

/-! ## Theorems -/

/-- A concrete user-callback environment used by witnesses. -/
def envC : Env := fun f arg _ => PyObj.val (100 * f + arg.length)

/-- C1: for every one of the five event classes and for all arguments
(identifier, target, fn), calling the class's `remove` classmethod
raises `NotImplementedError` unconditionally, and no registration
state is modified by the call. -/
theorem C1_remove_always_raises :
    ∀ (identifier : String) (target fnId : Nat) (st : RegState),
      (∃ m, InstrumentationEvents.remove identifier target fnId st =
        (some (PyErr.notImplementedError m), st)) ∧
      (∃ m, InstanceEvents.remove identifier target fnId st =
        (some (PyErr.notImplementedError m), st)) ∧
      (∃ m, MapperEvents.remove identifier target fnId st =
        (some (PyErr.notImplementedError m), st)) ∧
      (∃ m, SessionEvents.remove identifier target fnId st =
        (some (PyErr.notImplementedError m), st)) ∧
      (∃ m, AttributeEvents.remove identifier target fnId st =
        (some (PyErr.notImplementedError m), st)) := by
  intro identifier target fnId st
  exact ⟨⟨_, rfl⟩, ⟨_, rfl⟩, ⟨_, rfl⟩, ⟨_, rfl⟩, ⟨_, rfl⟩⟩

/-- C6: `InstrumentationEvents.accept_with` returns the
instrumentation registry for every target that is an instance of
`type` (any class, `type` itself included), returns `None` for every
target that is not a class, and no other outcome (in particular no
exception) is possible. -/
theorem C6_instrumentation_accept_with :
    (InstrumentationEvents.accept_with InstrTarget.typeItself =
      Except.ok (some InstrResolved.instrumentation_registry)) ∧
    (∀ id, InstrumentationEvents.accept_with (InstrTarget.cls id) =
      Except.ok (some InstrResolved.instrumentation_registry)) ∧
    (∀ id, InstrumentationEvents.accept_with (InstrTarget.nonClass id) =
      Except.ok none) ∧
    (∀ t, InstrumentationEvents.accept_with t =
        Except.ok (some InstrResolved.instrumentation_registry) ∨
      InstrumentationEvents.accept_with t = Except.ok none) := by
  refine ⟨rfl, fun _ => rfl, fun _ => rfl, fun t => ?_⟩
  cases t
  · exact Or.inl rfl
  · exact Or.inl rfl
  · exact Or.inr rfl

/-- C7 counterexample: the claim that every `accept_with` call returns
a resolved target or `None` without raising is false as stated:
`SessionEvents.accept_with` on a `ScopedSession` whose
`session_factory` is not a type raises
`sqlalchemy.exc.ArgumentError`. -/
theorem C7_counterexample :
    SessionEvents.accept_with (SessionTarget.scopedInstance (FactoryKind.notAType 0)) =
      Except.error (PyErr.argumentError scopedSessionErrMsg) := rfl

/-- C7 amended: of the four `accept_with` classmethods this module
defines (`AttributeEvents` inherits the base one), those of
`InstrumentationEvents`, `InstanceEvents` and `MapperEvents` return a
resolved target or `None` and never raise; `SessionEvents.accept_with`
also does so except that it raises `ArgumentError` exactly when the
target is a `ScopedSession` instance whose `session_factory` is not a
type or not a `Session` subclass. -/
theorem C7_accept_with_error_behaviour :
    (∀ t, ∃ r, InstrumentationEvents.accept_with t = Except.ok r) ∧
    (∀ t, ∃ r, InstanceEvents.accept_with t = Except.ok r) ∧
    (∀ t, ∃ r, MapperEvents.accept_with t = Except.ok r) ∧
    (∀ t : SessionTarget,
      (∃ r, SessionEvents.accept_with t = Except.ok r) ∨
      (SessionEvents.accept_with t =
          Except.error (PyErr.argumentError scopedSessionErrMsg) ∧
        ∃ id, t = SessionTarget.scopedInstance (FactoryKind.otherCls id) ∨
          t = SessionTarget.scopedInstance (FactoryKind.notAType id))) := by
  refine ⟨fun t => ?_, fun t => ?_, fun t => ?_, fun t => ?_⟩
  · cases t <;> exact ⟨_, rfl⟩
  · cases t
    case otherClass mgr => cases mgr <;> exact ⟨_, rfl⟩
    all_goals exact ⟨_, rfl⟩
  · cases t <;> exact ⟨_, rfl⟩
  · cases t with
    | scopedInstance f =>
      cases f with
      | sessionSubCls id => exact Or.inl ⟨_, rfl⟩
      | otherCls id => exact Or.inr ⟨rfl, id, Or.inl rfl⟩
      | notAType id => exact Or.inr ⟨rfl, id, Or.inr rfl⟩
    | cls kind => cases kind <;> exact Or.inl ⟨_, rfl⟩
    | sessionInstance id => exact Or.inl ⟨_, rfl⟩
    | other id => exact Or.inl ⟨_, rfl⟩

/-- C8 counterexample: the claim that each of the five adapter classes
defines both an `accept_with` and a `listen` classmethod of its own is
false: `SessionEvents` defines no `listen` of its own and
`AttributeEvents` defines no `accept_with` of its own. -/
theorem C8_counterexample :
    (definedClassmethods EventCls.sessionEvents).contains "listen" = false ∧
    (definedClassmethods EventCls.attributeEvents).contains "accept_with" = false := by
  constructor <;> decide

/-- C8 amended: all five adapter classes define their own `remove`;
`InstrumentationEvents`, `InstanceEvents` and `MapperEvents` define
both `accept_with` and `listen` of their own; `SessionEvents` defines
only `accept_with` and `AttributeEvents` defines only `listen`, each
inheriting the other method from the shared base class. -/
theorem C8_two_method_contract :
    (∀ c, "remove" ∈ definedClassmethods c) ∧
    (∀ c, c = EventCls.sessionEvents ∨ "listen" ∈ definedClassmethods c) ∧
    (∀ c, c = EventCls.attributeEvents ∨ "accept_with" ∈ definedClassmethods c) ∧
    (definedClassmethods EventCls.sessionEvents).contains "listen" = false ∧
    (definedClassmethods EventCls.attributeEvents).contains "accept_with" = false := by
  refine ⟨fun c => ?_, fun c => ?_, fun c => ?_, by decide, by decide⟩ <;>
    cases c <;> simp [definedClassmethods]

/-- Helper: `MapperEvents.listen` fully evaluated, by cases on the
flags and the hook lookup. -/
theorem mapper_listen_eq (target : MapperT) (identifier : String) (fnId : Nat)
    (raw retval propagate : Bool) :
    MapperEvents.listen target identifier fnId raw retval propagate =
      if raw then
        (if retval then
          Except.ok (mapperRegs target identifier (Callable.user fnId) propagate)
        else
          Except.ok (mapperRegs target identifier
            (Callable.mapperWrap true false none fnId) propagate))
      else
        match MapperEvents.argspec identifier with
        | some spec =>
          Except.ok (mapperRegs target identifier
            (Callable.mapperWrap false retval (target_index_of spec) fnId) propagate)
        | none => Except.error PyErr.attributeError := by
  cases raw <;> cases retval <;> cases propagate <;>
    cases h : MapperEvents.argspec identifier <;>
    simp [MapperEvents.listen, mapperRegs, h, bind, Except.bind]

/-- Helper: every registration produced by `mapperRegs` carries the
given callable and identifier. -/
theorem mapperRegs_mem (target : MapperT) (identifier : String) (fn : Callable)
    (propagate : Bool) (r : Registration)
    (hr : r ∈ mapperRegs target identifier fn propagate) :
    r.fn = fn ∧ r.identifier = identifier := by
  cases propagate <;> simp [mapperRegs] at hr
  · subst hr; exact ⟨rfl, rfl⟩
  · obtain ⟨m, hm, hmr⟩ := hr
    cases hmr
    exact ⟨rfl, rfl⟩

/-- Helper: with `raw=True` the wrapper of `MapperEvents.listen`
forwards the arguments untouched. -/
theorem mapperWrap_call_raw (retval : Bool) (ti : Option Nat) (f : Nat) (env : Env)
    (arg : List PyObj) (kw : Kw) :
    Callable.call env (Callable.mapperWrap true retval ti f) arg kw =
      some ⟨arg, kw, if retval then env f arg kw else PyObj.extContinue⟩ := by
  cases retval <;> rfl

/-- Helper: with `raw=False` but no `target` parameter in the hook
signature, the wrapper of `MapperEvents.listen` forwards the arguments
untouched. -/
theorem mapperWrap_call_none (retval : Bool) (f : Nat) (env : Env)
    (arg : List PyObj) (kw : Kw) :
    Callable.call env (Callable.mapperWrap false retval none f) arg kw =
      some ⟨arg, kw, if retval then env f arg kw else PyObj.extContinue⟩ := by
  cases retval <;> rfl

/-- Helper: with `raw=False` and a `target` parameter at runtime index
`i`, the wrapper of `MapperEvents.listen` replaces the argument at `i`
by the result of its `.obj()` call before invoking the user
callback. -/
theorem mapperWrap_call_some (retval : Bool) (i : Nat) (f : Nat) (env : Env)
    (arg : List PyObj) (kw : Kw) (state o : PyObj)
    (hget : arg[i]? = some state) (hobj : state.objMeth = some o) :
    Callable.call env (Callable.mapperWrap false retval (some i) f) arg kw =
      some ⟨arg.set i o, kw,
        if retval then env f (arg.set i o) kw else PyObj.extContinue⟩ := by
  cases retval <;>
    simp [Callable.call, mapperNormArgs, hget, hobj, bind, Option.bind]

/-- Helper: whenever the `MapperEvents.listen` wrapper with
`retval=False` completes, it returns `EXT_CONTINUE` and passes the
keyword arguments through. -/
theorem mapperWrap_retval_false_inv (raw : Bool) (ti : Option Nat) (f : Nat) (env : Env)
    (arg : List PyObj) (kw : Kw) (res : CallResult)
    (h : Callable.call env (Callable.mapperWrap raw false ti f) arg kw = some res) :
    res.ret = PyObj.extContinue ∧ res.fnKw = kw := by
  simp only [Callable.call, bind, Option.bind] at h
  rcases hn : mapperNormArgs raw ti arg with _ | a <;> rw [hn] at h
  · exact absurd h (by simp)
  · simp at h
    subst h
    exact ⟨rfl, rfl⟩

/-- Helper: the outcome of the `MapperEvents.listen` wrapper with
`retval=False` does not depend on the user callback's behaviour. -/
theorem mapperWrap_retval_false_env (raw : Bool) (ti : Option Nat) (f : Nat)
    (env env2 : Env) (arg : List PyObj) (kw : Kw) :
    Callable.call env (Callable.mapperWrap raw false ti f) arg kw =
      Callable.call env2 (Callable.mapperWrap raw false ti f) arg kw := by
  simp only [Callable.call, bind, Option.bind]
  cases mapperNormArgs raw ti arg <;> simp

/-- C2: every user callback registered via `MapperEvents.listen` with
`retval=False` is registered as a wrapper that calls the callback,
discards its return value (the outcome is independent of the
callback's behaviour), and itself returns the sentinel `EXT_CONTINUE`,
so such a listener can never alter the operation via its return
value. -/
theorem C2_mapper_retval_false_listener :
    ∀ (target : MapperT) (identifier : String) (fnId : Nat) (raw propagate : Bool)
      (regs : List Registration) (r : Registration),
      MapperEvents.listen target identifier fnId raw false propagate = Except.ok regs →
      r ∈ regs →
      (∃ ti, r.fn = Callable.mapperWrap raw false ti fnId) ∧
      (∀ (env : Env) (arg : List PyObj) (kw : Kw) (res : CallResult),
        Callable.call env r.fn arg kw = some res →
        res.ret = PyObj.extContinue) ∧
      (∀ (env env2 : Env) (arg : List PyObj) (kw : Kw),
        Callable.call env r.fn arg kw = Callable.call env2 r.fn arg kw) := by
  intro target identifier fnId raw propagate regs r hok hr
  rw [mapper_listen_eq] at hok
  cases raw with
  | true =>
    simp at hok
    subst hok
    obtain ⟨hfn, _⟩ := mapperRegs_mem _ _ _ _ _ hr
    refine ⟨⟨none, hfn⟩, ?_, ?_⟩
    · intro env arg kw res hc
      rw [hfn] at hc
      exact (mapperWrap_retval_false_inv _ _ _ _ _ _ _ hc).1
    · intro env env2 arg kw
      rw [hfn]
      exact mapperWrap_retval_false_env _ _ _ _ _ _ _
  | false =>
    rcases hA : MapperEvents.argspec identifier with _ | spec <;> rw [hA] at hok
    · exact absurd hok (by simp)
    · simp at hok
      subst hok
      obtain ⟨hfn, _⟩ := mapperRegs_mem _ _ _ _ _ hr
      refine ⟨⟨_, hfn⟩, ?_, ?_⟩
      · intro env arg kw res hc
        rw [hfn] at hc
        exact (mapperWrap_retval_false_inv _ _ _ _ _ _ _ hc).1
      · intro env env2 arg kw
        rw [hfn]
        exact mapperWrap_retval_false_env _ _ _ _ _ _ _

/-- C2 witness: a concrete `on_before_insert` registration with
`retval=False`, whose wrapper returns `EXT_CONTINUE` on a concrete
call. -/
theorem C2_witness :
    MapperEvents.listen ⟨1, [1]⟩ "on_before_insert" 7 false false false =
      Except.ok [⟨1, "on_before_insert", Callable.mapperWrap false false (some 2) 7, false⟩] ∧
    Callable.call envC (Callable.mapperWrap false false (some 2) 7)
        [PyObj.val 1, PyObj.val 2, PyObj.instanceState (PyObj.val 3)] [] =
      some ⟨[PyObj.val 1, PyObj.val 2, PyObj.val 3], [], PyObj.extContinue⟩ ∧
    (⟨[PyObj.val 1, PyObj.val 2, PyObj.val 3], [], PyObj.extContinue⟩ : CallResult).ret =
      PyObj.extContinue :=
  ⟨rfl, rfl,
    (C2_mapper_retval_false_listener ⟨1, [1]⟩ "on_before_insert" 7 false false
      [⟨1, "on_before_insert", Callable.mapperWrap false false (some 2) 7, false⟩]
      ⟨1, "on_before_insert", Callable.mapperWrap false false (some 2) 7, false⟩
      rfl (List.mem_singleton.mpr rfl)).2.1 envC
      [PyObj.val 1, PyObj.val 2, PyObj.instanceState (PyObj.val 3)] []
      ⟨[PyObj.val 1, PyObj.val 2, PyObj.val 3], [], PyObj.extContinue⟩ rfl⟩

/-- Helper: when every `mgr[key]` lookup succeeds, the propagation
loop of `AttributeEvents.listen` registers exactly the looked-up
attributes, in order. -/
theorem attr_mapM_ok (ms : List SubManagerT) (k identifier : String) (fn : Callable)
    (subIds : List Nat)
    (h : ms.mapM (fun m => m.getitem k) = some subIds) :
    attrSubListen ms k identifier fn =
      Except.ok (subIds.map fun a => ⟨a, identifier, fn, true⟩) := by
  induction ms generalizing subIds with
  | nil =>
    rw [List.mapM_nil] at h
    cases h
    rfl
  | cons m rest ih =>
    rw [List.mapM_cons] at h
    rcases hm : m.getitem k with _ | a <;> rw [hm] at h
    · exact absurd h (by simp)
    · rcases hrest : rest.mapM (fun m => m.getitem k) with _ | as <;> rw [hrest] at h
      · exact absurd h (by simp)
      · simp at h
        subst h
        unfold attrSubListen
        rw [hm, ih as hrest]
        rfl

/-- Helper: `AttributeEvents.listen` fully evaluated, assuming every
`mgr[key]` lookup succeeds. -/
theorem attr_listen_eq (target : AttributeT) (identifier : String) (fnId : Nat)
    (ah raw retval propagate : Bool) (subIds : List Nat)
    (hsubs : target.class_sub_managers.mapM (fun m => m.getitem target.key) =
      some subIds) :
    AttributeEvents.listen target identifier fnId ah raw retval propagate =
      Except.ok
        ((if ah then { target with dispatch_active_history := true } else target),
          ⟨target.id, identifier, attrFnOf raw retval fnId, propagate⟩ ::
            (if propagate then
              subIds.map fun a => ⟨a, identifier, attrFnOf raw retval fnId, true⟩
            else [])) := by
  unfold AttributeEvents.listen
  cases ah <;> cases propagate <;>
    rw [show (if (!raw || !retval) = true then Callable.attrWrap raw retval fnId
      else Callable.user fnId) = attrFnOf raw retval fnId from rfl] <;>
    simp [bind, Except.bind, attr_mapM_ok _ _ _ _ _ hsubs]

/-- Helper: projecting the registration target out of a propagation
registration list recovers the subject list. -/
theorem regs_map_target (l : List Nat) (identifier : String) (fn : Callable) :
    (l.map fun m => (⟨m, identifier, fn, true⟩ : Registration)).map
      Registration.target = l := by
  induction l with
  | nil => rfl
  | cons a l ih => rw [List.map_cons, List.map_cons, ih]

/-- Helper: the targets of the registrations `mapperRegs` performs. -/
theorem mapperRegs_targets (target : MapperT) (identifier : String) (fn : Callable) :
    (mapperRegs target identifier fn true).map Registration.target =
      target.self_and_descendants ∧
    (mapperRegs target identifier fn false).map Registration.target = [target.id] := by
  refine ⟨?_, rfl⟩
  show (target.self_and_descendants.map fun m =>
      (⟨m, identifier, fn, true⟩ : Registration)).map Registration.target =
    target.self_and_descendants
  rw [regs_map_target]

/-- C5: with `propagate=True` the registration is repeated so the
listener also applies to subclasses: `InstanceEvents.listen` registers
on the target and additionally on every manager of
`target.subclass_managers(True)`; `MapperEvents.listen` registers on
every mapper of `target.self_and_descendants` instead of only the
target; `AttributeEvents.listen` registers on the target and
additionally on the same-named attribute of every subclass manager.
With `propagate=False` each registers on the resolved target only. -/
theorem C5_propagate_registrations :
    (∀ (target : ClassManagerT) (identifier : String) (fnId : Nat) (raw : Bool),
      (InstanceEvents.listen target identifier fnId raw true).map Registration.target =
        target.id :: target.subclass_managers ∧
      (InstanceEvents.listen target identifier fnId raw false).map Registration.target =
        [target.id]) ∧
    (∀ (target : MapperT) (identifier : String) (fnId : Nat) (raw retval : Bool)
      (regs : List Registration),
      (MapperEvents.listen target identifier fnId raw retval true = Except.ok regs →
        regs.map Registration.target = target.self_and_descendants) ∧
      (MapperEvents.listen target identifier fnId raw retval false = Except.ok regs →
        regs.map Registration.target = [target.id])) ∧
    (∀ (target : AttributeT) (identifier : String) (fnId : Nat) (ah raw retval : Bool)
      (t2 : AttributeT) (regs : List Registration) (subIds : List Nat),
      target.class_sub_managers.mapM (fun m => m.getitem target.key) = some subIds →
      (AttributeEvents.listen target identifier fnId ah raw retval true =
          Except.ok (t2, regs) →
        regs.map Registration.target = target.id :: subIds) ∧
      (AttributeEvents.listen target identifier fnId ah raw retval false =
          Except.ok (t2, regs) →
        regs.map Registration.target = [target.id])) := by
  refine ⟨?_, ?_, ?_⟩
  · intro target identifier fnId raw
    refine ⟨?_, rfl⟩
    show target.id :: (target.subclass_managers.map fun mgr =>
        (⟨mgr, identifier, if !raw then Callable.instanceWrap fnId
          else Callable.user fnId, true⟩ : Registration)).map Registration.target =
      target.id :: target.subclass_managers
    rw [regs_map_target]
  · intro target identifier fnId raw retval regs
    constructor <;> intro h <;> rw [mapper_listen_eq] at h <;> cases raw
    · rcases hA : MapperEvents.argspec identifier with _ | spec <;> rw [hA] at h
      · exact absurd h (by simp)
      · simp at h
        subst h
        exact (mapperRegs_targets _ _ _).1
    · cases retval <;> simp at h <;> subst h <;> exact (mapperRegs_targets _ _ _).1
    · rcases hA : MapperEvents.argspec identifier with _ | spec <;> rw [hA] at h
      · exact absurd h (by simp)
      · simp at h
        subst h
        exact (mapperRegs_targets _ _ _).2
    · cases retval <;> simp at h <;> subst h <;> exact (mapperRegs_targets _ _ _).2
  · intro target identifier fnId ah raw retval t2 regs subIds hsubs
    constructor <;> intro h <;>
      rw [attr_listen_eq target identifier fnId ah raw retval _ subIds hsubs] at h <;>
      simp at h <;>
      obtain ⟨h1, h2⟩ := h <;> subst h2
    · show target.id :: (subIds.map fun a =>
          (⟨a, identifier, attrFnOf raw retval fnId, true⟩ : Registration)).map
            Registration.target =
        target.id :: subIds
      rw [regs_map_target]
    · rfl

/-- C5 witness: concrete propagating registrations for the three
listen classmethods. -/
theorem C5_witness :
    ((InstanceEvents.listen ⟨1, [2, 3]⟩ "on_load" 4 false true).map
      Registration.target = [1, 2, 3]) ∧
    (MapperEvents.listen ⟨5, [5, 6]⟩ "on_before_insert" 7 false false true =
      Except.ok [⟨5, "on_before_insert", Callable.mapperWrap false false (some 2) 7, true⟩,
        ⟨6, "on_before_insert", Callable.mapperWrap false false (some 2) 7, true⟩]) ∧
    (([⟨5, "on_before_insert", Callable.mapperWrap false false (some 2) 7, true⟩,
        ⟨6, "on_before_insert", Callable.mapperWrap false false (some 2) 7, true⟩] :
      List Registration).map Registration.target = [5, 6]) ∧
    (([(⟨[("phone", 9)]⟩ : SubManagerT)].mapM fun m => m.getitem "phone") = some [9]) ∧
    (AttributeEvents.listen ⟨8, "phone", false, [⟨[("phone", 9)]⟩]⟩ "on_set" 10
        false false false true =
      Except.ok (⟨8, "phone", false, [⟨[("phone", 9)]⟩]⟩,
        [⟨8, "on_set", Callable.attrWrap false false 10, true⟩,
          ⟨9, "on_set", Callable.attrWrap false false 10, true⟩])) ∧
    (([⟨8, "on_set", Callable.attrWrap false false 10, true⟩,
        ⟨9, "on_set", Callable.attrWrap false false 10, true⟩] :
      List Registration).map Registration.target = [8, 9]) :=
  ⟨(C5_propagate_registrations.1 ⟨1, [2, 3]⟩ "on_load" 4 false).1,
    rfl,
    (C5_propagate_registrations.2.1 ⟨5, [5, 6]⟩ "on_before_insert" 7 false false
      [⟨5, "on_before_insert", Callable.mapperWrap false false (some 2) 7, true⟩,
        ⟨6, "on_before_insert", Callable.mapperWrap false false (some 2) 7, true⟩]).1 rfl,
    rfl,
    rfl,
    (C5_propagate_registrations.2.2 ⟨8, "phone", false, [⟨[("phone", 9)]⟩]⟩ "on_set" 10
      false false false ⟨8, "phone", false, [⟨[("phone", 9)]⟩]⟩
      [⟨8, "on_set", Callable.attrWrap false false 10, true⟩,
        ⟨9, "on_set", Callable.attrWrap false false 10, true⟩] [9] rfl).1 rfl⟩

/-- Helper: every registration the `AttributeEvents.listen`
propagation loop performs carries the given callable and
identifier. -/
theorem attrSubListen_mem (ms : List SubManagerT) (k identifier : String)
    (fn : Callable) :
    ∀ (subs : List Registration), attrSubListen ms k identifier fn = Except.ok subs →
      ∀ r ∈ subs, r.fn = fn ∧ r.identifier = identifier := by
  induction ms with
  | nil =>
    intro subs h r hr
    cases h
    cases hr
  | cons m rest ih =>
    intro subs h r hr
    unfold attrSubListen at h
    rcases hm : m.getitem k with _ | a <;> rw [hm] at h
    · cases h
    · rcases hrest : attrSubListen rest k identifier fn with e | subs2 <;>
        rw [hrest] at h <;> simp [bind, Except.bind] at h
      subst h
      rcases List.mem_cons.1 hr with hr | hr
      · subst hr
        exact ⟨rfl, rfl⟩
      · exact ih subs2 hrest r hr

/-- Helper: every registration `AttributeEvents.listen` performs
carries the callable it built from the flags. -/
theorem attr_listen_fn_inv (target : AttributeT) (identifier : String) (fnId : Nat)
    (ah raw retval propagate : Bool) (t2 : AttributeT) (regs : List Registration)
    (hok : AttributeEvents.listen target identifier fnId ah raw retval propagate =
      Except.ok (t2, regs)) :
    ∀ r ∈ regs, r.fn = attrFnOf raw retval fnId := by
  intro r hr
  unfold AttributeEvents.listen at hok
  rw [show (if (!raw || !retval) = true then Callable.attrWrap raw retval fnId
    else Callable.user fnId) = attrFnOf raw retval fnId from rfl] at hok
  cases ah <;> cases propagate <;> simp [bind, Except.bind] at hok
  case false.false =>
    obtain ⟨h1, h2⟩ := hok
    subst h2
    rcases List.mem_singleton.1 hr with rfl
    rfl
  case true.false =>
    obtain ⟨h1, h2⟩ := hok
    subst h2
    rcases List.mem_singleton.1 hr with rfl
    rfl
  case false.true =>
    rcases hsub : attrSubListen target.class_sub_managers target.key identifier
        (attrFnOf raw retval fnId) with e | subs <;> rw [hsub] at hok <;> simp at hok
    obtain ⟨h1, h2⟩ := hok
    subst h2
    rcases List.mem_cons.1 hr with hr | hr
    · subst hr; rfl
    · exact (attrSubListen_mem _ _ _ _ subs hsub r hr).1
  case true.true =>
    rcases hsub : attrSubListen target.class_sub_managers target.key identifier
        (attrFnOf raw retval fnId) with e | subs <;> rw [hsub] at hok <;> simp at hok
    obtain ⟨h1, h2⟩ := hok
    subst h2
    rcases List.mem_cons.1 hr with hr | hr
    · subst hr; rfl
    · exact (attrSubListen_mem _ _ _ _ subs hsub r hr).1

/-- Helper: every registration `InstanceEvents.listen` performs
carries the callable it built from the `raw` flag. -/
theorem instance_listen_fn (target : ClassManagerT) (identifier : String) (fnId : Nat)
    (raw propagate : Bool) (r : Registration)
    (hr : r ∈ InstanceEvents.listen target identifier fnId raw propagate) :
    r.fn = (if !raw then Callable.instanceWrap fnId else Callable.user fnId) := by
  unfold InstanceEvents.listen at hr
  cases propagate <;> simp at hr
  · subst hr
    cases raw <;> rfl
  · rcases hr with hr | ⟨m, hm, hr⟩
    · subst hr
      cases raw <;> rfl
    · cases hr
      cases raw <;> rfl

/-- C3: for every callback registered with `raw=False` via
`InstanceEvents.listen`, `MapperEvents.listen` or
`AttributeEvents.listen`, the registered wrapper replaces the
state-management argument with the underlying instance obtained by
calling `.obj()` on it before invoking the user callback; with
`raw=True` the management object is passed through unchanged. -/
theorem C3_raw_flag_unwraps_state :
    (∀ (target : ClassManagerT) (identifier : String) (fnId : Nat) (propagate : Bool)
      (r : Registration),
      r ∈ InstanceEvents.listen target identifier fnId false propagate →
      r.fn = Callable.instanceWrap fnId) ∧
    (∀ (env : Env) (fnId : Nat) (state o : PyObj) (rest : List PyObj) (kw : Kw),
      state.objMeth = some o →
      Callable.call env (Callable.instanceWrap fnId) (state :: rest) kw =
        some ⟨o :: rest, kw, env fnId (o :: rest) kw⟩) ∧
    (∀ (target : MapperT) (identifier : String) (fnId : Nat) (retval propagate : Bool)
      (spec : List String) (regs : List Registration) (r : Registration),
      MapperEvents.argspec identifier = some spec →
      MapperEvents.listen target identifier fnId false retval propagate = Except.ok regs →
      r ∈ regs →
      r.fn = Callable.mapperWrap false retval (target_index_of spec) fnId) ∧
    (∀ (env : Env) (retval : Bool) (fnId i : Nat) (arg : List PyObj) (kw : Kw)
      (state o : PyObj),
      arg[i]? = some state → state.objMeth = some o →
      ∃ res, Callable.call env (Callable.mapperWrap false retval (some i) fnId) arg kw =
          some res ∧ res.fnArgs = arg.set i o ∧ res.fnKw = kw) ∧
    (∀ (target : AttributeT) (identifier : String) (fnId : Nat)
      (ah retval propagate : Bool) (t2 : AttributeT) (regs : List Registration)
      (r : Registration),
      AttributeEvents.listen target identifier fnId ah false retval propagate =
        Except.ok (t2, regs) →
      r ∈ regs → r.fn = Callable.attrWrap false retval fnId) ∧
    (∀ (env : Env) (retval : Bool) (fnId : Nat) (target value o : PyObj)
      (rest : List PyObj),
      target.objMeth = some o →
      ∃ res, Callable.call env (Callable.attrWrap false retval fnId)
          (target :: value :: rest) [] = some res ∧
        res.fnArgs = o :: value :: rest) ∧
    (∀ (env : Env) (retval : Bool) (ti : Option Nat) (fnId : Nat) (arg : List PyObj)
      (kw : Kw) (res : CallResult),
      (Callable.call env (Callable.user fnId) arg kw = some res → res.fnArgs = arg) ∧
      (Callable.call env (Callable.mapperWrap true retval ti fnId) arg kw = some res →
        res.fnArgs = arg) ∧
      (Callable.call env (Callable.attrWrap true retval fnId) arg kw = some res →
        res.fnArgs = arg)) := by
  refine ⟨?_, ?_, ?_, ?_, ?_, ?_, ?_⟩
  · intro target identifier fnId propagate r hr
    exact instance_listen_fn target identifier fnId false propagate r hr
  · intro env fnId state o rest kw hobj
    simp [Callable.call, hobj]
  · intro target identifier fnId retval propagate spec regs r hA hok hr
    rw [mapper_listen_eq] at hok
    rw [hA] at hok
    simp at hok
    subst hok
    exact (mapperRegs_mem _ _ _ _ _ hr).1
  · intro env retval fnId i arg kw state o hget hobj
    exact ⟨_, mapperWrap_call_some retval i fnId env arg kw state o hget hobj, rfl, rfl⟩
  · intro target identifier fnId ah retval propagate t2 regs r hok hr
    have h := attr_listen_fn_inv target identifier fnId ah false retval propagate
      t2 regs hok r hr
    rw [h]
    rfl
  · intro env retval fnId target value o rest hobj
    cases retval
    · exact ⟨⟨o :: value :: rest, [], value⟩,
        by simp [Callable.call, hobj, bind, Option.bind], rfl⟩
    · exact ⟨⟨o :: value :: rest, [], env fnId (o :: value :: rest) []⟩,
        by simp [Callable.call, hobj, bind, Option.bind], rfl⟩
  · intro env retval ti fnId arg kw res
    refine ⟨?_, ?_, ?_⟩
    · intro h
      cases h
      rfl
    · intro h
      rw [mapperWrap_call_raw] at h
      cases h
      rfl
    · intro h
      match arg, kw with
      | [], _ => exact absurd h (by cases kw <;> simp [Callable.call])
      | [x], _ => exact absurd h (by cases kw <;> simp [Callable.call])
      | x :: y :: rest, k :: ks => exact absurd h (by simp [Callable.call])
      | x :: y :: rest, [] =>
        cases retval <;> simp [Callable.call, bind, Option.bind] at h <;>
          rw [h.symm]

/-- C3 witness: the instance-event wrapper unwraps a concrete
`InstanceState` before invoking the callback. -/
theorem C3_witness :
    (PyObj.instanceState (PyObj.val 5)).objMeth = some (PyObj.val 5) ∧
    Callable.call envC (Callable.instanceWrap 0)
        [PyObj.instanceState (PyObj.val 5)] [] =
      some ⟨[PyObj.val 5], [], envC 0 [PyObj.val 5] []⟩ :=
  ⟨rfl, C3_raw_flag_unwraps_state.2.1 envC 0 (PyObj.instanceState (PyObj.val 5))
    (PyObj.val 5) [] [] rfl⟩

/-- C4: every callback registered via `AttributeEvents.listen` with
`retval=False` is registered as a wrapper that calls the user
callback, ignores its return value (the outcome is independent of the
callback's behaviour) and returns the incoming `value` argument
unchanged; with `retval=True` the user callback's return value is
returned instead and becomes the effective value. -/
theorem C4_attr_retval_controls_return :
    (∀ (target : AttributeT) (identifier : String) (fnId : Nat) (ah raw propagate : Bool)
      (t2 : AttributeT) (regs : List Registration) (r : Registration),
      AttributeEvents.listen target identifier fnId ah raw false propagate =
        Except.ok (t2, regs) →
      r ∈ regs → r.fn = Callable.attrWrap raw false fnId) ∧
    (∀ (env : Env) (raw : Bool) (fnId : Nat) (target value : PyObj) (rest : List PyObj)
      (kw : Kw) (res : CallResult),
      Callable.call env (Callable.attrWrap raw false fnId)
        (target :: value :: rest) kw = some res →
      res.ret = value) ∧
    (∀ (env env2 : Env) (raw : Bool) (fnId : Nat) (arg : List PyObj) (kw : Kw),
      Callable.call env (Callable.attrWrap raw false fnId) arg kw =
        Callable.call env2 (Callable.attrWrap raw false fnId) arg kw) ∧
    (∀ (env : Env) (fnId : Nat) (target value o : PyObj) (rest : List PyObj),
      target.objMeth = some o →
      Callable.call env (Callable.attrWrap false true fnId)
          (target :: value :: rest) [] =
        some ⟨o :: value :: rest, [], env fnId (o :: value :: rest) []⟩) ∧
    (∀ (env : Env) (fnId : Nat) (arg : List PyObj) (kw : Kw),
      Callable.call env (Callable.user fnId) arg kw =
        some ⟨arg, kw, env fnId arg kw⟩) := by
  refine ⟨?_, ?_, ?_, ?_, ?_⟩
  · intro target identifier fnId ah raw propagate t2 regs r hok hr
    have h := attr_listen_fn_inv target identifier fnId ah raw false propagate
      t2 regs hok r hr
    rw [h]
    cases raw <;> rfl
  · intro env raw fnId target value rest kw res h
    cases raw
    · rcases ho : target.objMeth with _ | o <;>
        cases kw <;> simp [Callable.call, ho, bind, Option.bind] at h
      rw [h.symm]
    · cases kw <;> simp [Callable.call, bind, Option.bind] at h
      rw [h.symm]
  · intro env env2 raw fnId arg kw
    match arg, kw with
    | [], _ => cases kw <;> rfl
    | [x], _ => cases kw <;> rfl
    | x :: y :: rest, k :: ks => rfl
    | x :: y :: rest, [] => cases raw <;> rfl
  · intro env fnId target value o rest hobj
    simp [Callable.call, hobj, bind, Option.bind]
  · intro env fnId arg kw
    rfl

/-- C4 witness: a concrete `retval=False` attribute wrapper returning
the incoming value. -/
theorem C4_witness :
    Callable.call envC (Callable.attrWrap false false 3)
        [PyObj.instanceState (PyObj.val 1), PyObj.val 2] [] =
      some ⟨[PyObj.val 1, PyObj.val 2], [], PyObj.val 2⟩ ∧
    (⟨[PyObj.val 1, PyObj.val 2], [], PyObj.val 2⟩ : CallResult).ret = PyObj.val 2 :=
  ⟨rfl, C4_attr_retval_controls_return.2.1 envC false 3
    (PyObj.instanceState (PyObj.val 1)) (PyObj.val 2) [] []
    ⟨[PyObj.val 1, PyObj.val 2], [], PyObj.val 2⟩ rfl⟩

/-- C9: in `MapperEvents.listen` with `raw=False`, a positional
argument is unwrapped only when the declared signature of the hook
named by the identifier has a parameter named `target`; for the three
hooks whose signatures have none (`on_instrument_class`,
`on_translate_row`, `on_create_instance`) the computed `target_index`
is `None` and the wrapper forwards all arguments to the user callback
unchanged even though `raw=False`. -/
theorem C9_target_index_only_when_declared :
    (∀ identifier ∈ (["on_instrument_class", "on_translate_row",
        "on_create_instance"] : List String),
      (MapperEvents.argspec identifier).isSome = true ∧
      ∀ spec, MapperEvents.argspec identifier = some spec →
        spec.contains "target" = false ∧ target_index_of spec = none) ∧
    (∀ (identifier : String) (spec : List String),
      MapperEvents.argspec identifier = some spec →
      (spec.contains "target" = false ∧ target_index_of spec = none ∧
        identifier ∈ (["on_instrument_class", "on_translate_row",
          "on_create_instance"] : List String)) ∨
      (∃ j, spec.findIdx? (fun p => p == "target") = some j ∧
        target_index_of spec = some (j - 1))) ∧
    (∀ (env : Env) (retval : Bool) (fnId : Nat) (arg : List PyObj) (kw : Kw),
      ∃ res, Callable.call env (Callable.mapperWrap false retval none fnId) arg kw =
          some res ∧ res.fnArgs = arg ∧ res.fnKw = kw) ∧
    (∀ (target : MapperT) (fnId : Nat) (retval propagate : Bool)
      (identifier : String) (spec : List String) (regs : List Registration)
      (r : Registration),
      MapperEvents.argspec identifier = some spec → target_index_of spec = none →
      MapperEvents.listen target identifier fnId false retval propagate =
        Except.ok regs →
      r ∈ regs → r.fn = Callable.mapperWrap false retval none fnId) := by
  refine ⟨?_, ?_, ?_, ?_⟩
  · intro identifier hmem
    simp at hmem
    rcases hmem with rfl | rfl | rfl <;>
      exact ⟨rfl, fun spec hspec => by cases hspec; exact ⟨rfl, rfl⟩⟩
  · intro identifier spec h
    unfold MapperEvents.argspec at h
    split at h <;> cases h <;>
      first
        | exact Or.inl ⟨rfl, rfl, by simp⟩
        | exact Or.inr ⟨3, rfl, rfl⟩
        | exact Or.inr ⟨4, rfl, rfl⟩
  · intro env retval fnId arg kw
    exact ⟨_, mapperWrap_call_none retval fnId env arg kw, rfl, rfl⟩
  · intro target fnId retval propagate identifier spec regs r hA hnone hok hr
    rw [mapper_listen_eq, hA] at hok
    simp at hok
    subst hok
    have h := (mapperRegs_mem _ _ _ _ _ hr).1
    rw [hnone] at h
    exact h

/-- C9 witness: `on_translate_row` has no `target` parameter, and a
`raw=False` registration of it carries a wrapper with no target
index. -/
theorem C9_witness :
    MapperEvents.argspec "on_translate_row" =
      some ["self", "mapper", "context", "row"] ∧
    target_index_of ["self", "mapper", "context", "row"] = none ∧
    MapperEvents.listen ⟨1, [1]⟩ "on_translate_row" 9 false false false =
      Except.ok [⟨1, "on_translate_row", Callable.mapperWrap false false none 9,
        false⟩] ∧
    (⟨1, "on_translate_row", Callable.mapperWrap false false none 9, false⟩ :
      Registration).fn = Callable.mapperWrap false false none 9 :=
  ⟨rfl, rfl, rfl,
    C9_target_index_only_when_declared.2.2.2 ⟨1, [1]⟩ 9 false false
      "on_translate_row" ["self", "mapper", "context", "row"]
      [⟨1, "on_translate_row", Callable.mapperWrap false false none 9, false⟩]
      ⟨1, "on_translate_row", Callable.mapperWrap false false none 9, false⟩
      rfl rfl rfl (List.mem_singleton.mpr rfl)⟩

/-- C10: when both `raw=True` and `retval=True` are passed,
`MapperEvents.listen` and `AttributeEvents.listen` create no wrapper
and register the user's function object unchanged (and never consult
the hook signature), and `InstanceEvents.listen` with `raw=True`
likewise forwards the function unchanged; the registered callable then
behaves exactly as the user function. -/
theorem C10_raw_retval_forwards_fn :
    (∀ (target : MapperT) (identifier : String) (fnId : Nat) (propagate : Bool),
      ∃ regs, MapperEvents.listen target identifier fnId true true propagate =
        Except.ok regs ∧ ∀ r ∈ regs, r.fn = Callable.user fnId) ∧
    (∀ (target : AttributeT) (identifier : String) (fnId : Nat) (ah propagate : Bool)
      (t2 : AttributeT) (regs : List Registration) (r : Registration),
      AttributeEvents.listen target identifier fnId ah true true propagate =
        Except.ok (t2, regs) →
      r ∈ regs → r.fn = Callable.user fnId) ∧
    (∀ (target : ClassManagerT) (identifier : String) (fnId : Nat) (propagate : Bool)
      (r : Registration),
      r ∈ InstanceEvents.listen target identifier fnId true propagate →
      r.fn = Callable.user fnId) ∧
    (∀ (env : Env) (fnId : Nat) (arg : List PyObj) (kw : Kw),
      Callable.call env (Callable.user fnId) arg kw =
        some ⟨arg, kw, env fnId arg kw⟩) := by
  refine ⟨?_, ?_, ?_, ?_⟩
  · intro target identifier fnId propagate
    refine ⟨mapperRegs target identifier (Callable.user fnId) propagate, ?_, ?_⟩
    · rw [mapper_listen_eq]
      rfl
    · intro r hr
      exact (mapperRegs_mem _ _ _ _ _ hr).1
  · intro target identifier fnId ah propagate t2 regs r hok hr
    have h := attr_listen_fn_inv target identifier fnId ah true true propagate
      t2 regs hok r hr
    rw [h]
    rfl
  · intro target identifier fnId propagate r hr
    have h := instance_listen_fn target identifier fnId true propagate r hr
    rw [h]
    rfl
  · intro env fnId arg kw
    rfl

/-- C10 witness: a `raw=True, retval=True` attribute registration
carries the user function object itself. -/
theorem C10_witness :
    AttributeEvents.listen ⟨4, "k", false, []⟩ "on_set" 6 false true true false =
      Except.ok (⟨4, "k", false, []⟩, [⟨4, "on_set", Callable.user 6, false⟩]) ∧
    (⟨4, "on_set", Callable.user 6, false⟩ : Registration).fn = Callable.user 6 :=
  ⟨rfl, C10_raw_retval_forwards_fn.2.1 ⟨4, "k", false, []⟩ "on_set" 6 false false
    ⟨4, "k", false, []⟩ [⟨4, "on_set", Callable.user 6, false⟩]
    ⟨4, "on_set", Callable.user 6, false⟩ rfl (List.mem_singleton.mpr rfl)⟩
